import Mathlib

/-!
Verification of the streaming-chat orchestration core of the
`experience-iq` backend (FastAPI + Gemini + Supabase), as a shallow
embedding in Lean 4.

Sources embedded:
  * `api/services/gemini.py` — `stream_response`,
    `stream_resume_required_message`, `upload_file`,
    `handle_function_call` (history construction);
  * `api/index.py` — `handle_chat_data`, `get_chat_history`;
  * `api/db/service.py` — `get_messages`, `save_resume`,
    `save_job_description`, `_extract_file_data`.

Modelling conventions:
  * Events yielded by the SSE generators are modelled by the inductive
    `SSEEvent`; the constructor `done` stands for the literal sentinel
    line `data: [DONE]\n\n` (the other constructors correspond to the
    JSON payloads passed through `format_sse`).
  * Python exceptions are modelled by explicit fault parameters:
    the remote generation stream either ends naturally after a list of
    chunks (`StreamOutcome.ok`) or raises after yielding a prefix of
    chunks (`StreamOutcome.fault`); the persistence call
    `create_message` either succeeds (`persistOk = true`) or raises.
  * A generator run is summarised by `StreamResult`: the yielded events
    in order, the content of the "model" message written by
    `create_message` (if the write happened and succeeded), and whether
    an exception escaped the generator.
  * Python truthiness of strings is modelled by comparison with `""`
    (an absent/`None` text and an empty text behave identically under
    `or` / `if`, which is all the embedded code does with them).
-/

namespace ExperienceIQ

/-- An SSE event yielded by the chat generators. `done` is the literal
`data: [DONE]\n\n` sentinel; every other constructor is the JSON object
`{"type": ..., ...}` rendered through `format_sse`. -/
inductive SSEEvent where
  | start (messageId : String)
  | textStart (id : String)
  | textDelta (id : String) (delta : String)
  | textEnd (id : String)
  | finish
  | done
deriving DecidableEq, Repr

/-- The fixed text-block id used by both generators (`text_stream_id = "text-1"`). -/
def textStreamId : String := "text-1"

/-- One chunk of the remote generation stream, as consumed by the loop
`for chunk in stream` of `stream_response` (gemini.py lines 207-235):
either `chunk.candidates[0].content.parts[0].function_call` is truthy —
in which case the loop resolves it through `handle_function_call`, whose
returned text we carry in the constructor — or the chunk contributes
`chunk.text` (possibly falsy, i.e. `""`). -/
inductive Chunk where
  | fcall (response : String)
  | text (s : String)
deriving DecidableEq, Repr

/-- State threaded through the `for chunk in stream` loop of
`stream_response`: events yielded so far, the `text_started` flag and
`accumulated_content`. -/
structure LoopState where
  events : List SSEEvent
  started : Bool
  acc : String
deriving DecidableEq, Repr

/-- The body of the `for chunk in stream` loop of `stream_response`
(gemini.py lines 207-235), folded over the chunk list: a truthy
function-call response or truthy `chunk.text` opens the text block if
not yet open, yields a `text-delta`, and extends `accumulated_content`;
falsy text contributes nothing. -/
def runChunks : List Chunk → Bool → String → LoopState
  | [], started, acc => ⟨[], started, acc⟩
  | Chunk.fcall response :: cs, started, acc =>
      if response = "" then runChunks cs started acc
      else
        let rest := runChunks cs true (acc ++ response)
        ⟨(if started then [] else [SSEEvent.textStart textStreamId]) ++
           SSEEvent.textDelta textStreamId response :: rest.events,
         rest.started, rest.acc⟩
  | Chunk.text s :: cs, started, acc =>
      if s = "" then runChunks cs started acc
      else
        let rest := runChunks cs true (acc ++ s)
        ⟨(if started then [] else [SSEEvent.textStart textStreamId]) ++
           SSEEvent.textDelta textStreamId s :: rest.events,
         rest.started, rest.acc⟩

/-- Outcome of consuming the remote generation stream inside the `try`
of `stream_response`: either every chunk is processed and the stream
ends naturally, or an exception is raised after a prefix of chunks was
processed (a gateway failure mid-stream, a malformed chunk, or a
failure inside `handle_function_call`). -/
inductive StreamOutcome where
  | ok (chunks : List Chunk)
  | fault (chunks : List Chunk)
deriving DecidableEq, Repr

/-- Summary of one run of an SSE generator: the events yielded in
order, the content of the "model" message persisted by
`create_message` (`none` when no write happened or the write raised),
and whether an exception escaped to the caller. -/
structure StreamResult where
  events : List SSEEvent
  persisted : Option String
  raised : Bool
deriving DecidableEq, Repr

/-- Shallow embedding of `stream_response` (gemini.py lines 145-257),
starting at the `yield` of the `start` event. `outcome` is the
behaviour of the remote generation stream, `persistOk` whether the
`create_message` call (line 241) succeeds. On natural end: close the
text block if open, persist the accumulated text if nonempty, then
`finish` and the sentinel. On any exception inside the `try` (a stream
fault, or a persistence failure): the `except` clause closes the text
block if `text_started`, yields `finish` and the sentinel, and
re-raises. -/
def stream_response (messageId : String) (outcome : StreamOutcome)
    (persistOk : Bool) : StreamResult :=
  match outcome with
  | StreamOutcome.ok chunks =>
      let st := runChunks chunks false ""
      let closing := if st.started then [SSEEvent.textEnd textStreamId] else []
      if st.acc = "" then
        ⟨SSEEvent.start messageId :: st.events ++ closing ++
           [SSEEvent.finish, SSEEvent.done],
         none, false⟩
      else if persistOk then
        ⟨SSEEvent.start messageId :: st.events ++ closing ++
           [SSEEvent.finish, SSEEvent.done],
         some st.acc, false⟩
      else
        ⟨SSEEvent.start messageId :: st.events ++ closing ++ closing ++
           [SSEEvent.finish, SSEEvent.done],
         none, true⟩
  | StreamOutcome.fault chunks =>
      let st := runChunks chunks false ""
      let closing := if st.started then [SSEEvent.textEnd textStreamId] else []
      ⟨SSEEvent.start messageId :: st.events ++ closing ++
         [SSEEvent.finish, SSEEvent.done],
       none, true⟩

/-- The fixed prompt-for-resume text of `stream_resume_required_message`
(gemini.py line 279). -/
def resumeRequiredText : String :=
  "Please upload a resume before chatting with Resummate."

/-- Shallow embedding of `stream_resume_required_message` (gemini.py
lines 260-293): a fixed synthetic stream, with the `create_message`
call sitting between `text-end` and `finish` and **not** guarded by a
`try`, so a persistence failure escapes before `finish` is yielded. -/
def stream_resume_required_message (messageId : String)
    (persistOk : Bool) : StreamResult :=
  let head := [SSEEvent.start messageId, SSEEvent.textStart textStreamId,
               SSEEvent.textDelta textStreamId resumeRequiredText,
               SSEEvent.textEnd textStreamId]
  if persistOk then
    ⟨head ++ [SSEEvent.finish, SSEEvent.done], some resumeRequiredText, false⟩
  else
    ⟨head, none, true⟩

/-- Concatenation, in order, of the `delta` fields of the `text-delta`
events of a stream. -/
def deltaConcat : List SSEEvent → String
  | [] => ""
  | SSEEvent.textDelta _ d :: rest => d ++ deltaConcat rest
  | SSEEvent.start _ :: rest => deltaConcat rest
  | SSEEvent.textStart _ :: rest => deltaConcat rest
  | SSEEvent.textEnd _ :: rest => deltaConcat rest
  | SSEEvent.finish :: rest => deltaConcat rest
  | SSEEvent.done :: rest => deltaConcat rest

/-- Number of `text-start` events in a stream. -/
def countTextStart (evs : List SSEEvent) : Nat :=
  evs.countP fun e => match e with | SSEEvent.textStart _ => true | _ => false

/-- Number of `text-end` events in a stream. -/
def countTextEnd (evs : List SSEEvent) : Nat :=
  evs.countP fun e => match e with | SSEEvent.textEnd _ => true | _ => false

/-- Number of `finish` events in a stream. -/
def countFinish (evs : List SSEEvent) : Nat :=
  evs.countP fun e => match e with | SSEEvent.finish => true | _ => false

/-- Number of sentinel `[DONE]` lines in a stream. -/
def countDone (evs : List SSEEvent) : Nat :=
  evs.countP fun e => match e with | SSEEvent.done => true | _ => false

/-- A clean client-visible stream: ends with `finish` immediately
followed by the `[DONE]` sentinel, contains exactly one `finish` and
one sentinel, and at most one `text-start` and one `text-end`. -/
def cleanTail (evs : List SSEEvent) : Prop :=
  (∃ pre, evs = pre ++ [SSEEvent.finish, SSEEvent.done])
  ∧ countFinish evs = 1 ∧ countDone evs = 1
  ∧ countTextStart evs ≤ 1 ∧ countTextEnd evs ≤ 1

/-- One part of a client message (`ClientMessagePart.text`); `""` models
an absent/falsy `text` field. -/
structure ClientMessagePart where
  text : String
deriving DecidableEq, Repr

/-- A client chat message (`ClientMessage`): `content` with `""` for an
absent/falsy value, and the `parts` list with `[]` for an absent/falsy
value (`content or ""` and `if ... and last_message.parts` identify
`None` with the empty value, which is all `handle_chat_data` does). -/
structure ClientMessage where
  content : String
  parts : List ClientMessagePart
deriving DecidableEq, Repr

/-- Prompt extraction of `handle_chat_data` (index.py lines 68-73):
take `last_message.content or ""`; if that is falsy and parts exist,
join the truthy part texts with a space. -/
def extractPrompt (m : ClientMessage) : String :=
  if m.content = "" ∧ m.parts ≠ [] then
    String.intercalate " " ((m.parts.filter (fun pt => pt.text ≠ "")).map (fun pt => pt.text))
  else m.content

/-- Observable steps of one `/api/chat` request: the durable write of
the incoming user turn (`create_message` at index.py lines 82-84), and
the streamed response returned to the client (with its own persistence
summarised inside the `StreamResult`). -/
inductive ChatAction where
  | createUserMessage (threadId : String) (content : String)
  | respondStream (r : StreamResult)
deriving DecidableEq, Repr

/-- External-collaborator behaviour for one `/api/chat` request:
whether the user-turn `create_message` succeeds, the thread's resume
record (`get_resume`, `none` when the table has no row), the optional
job-description record, the remote generation behaviour and the
model-message persistence behaviour of the response stream. -/
structure ChatEnv where
  userWriteOk : Bool
  resume : Option String
  jobDescription : Option String
  outcome : StreamOutcome
  persistOk : Bool
deriving DecidableEq, Repr

/-- Shallow embedding of `handle_chat_data` (index.py lines 62-104).
`genId` is the UUID generated when the request carries no id, and
`genMsgId` the message id generated by the chosen stream generator.
Errors are HTTP status codes: 400 for a missing/empty message, 500 for
an exception escaping the handler (the failed user-turn write). The
success value is the ordered trace of observable steps. -/
def handle_chat_data (messages : List ClientMessage) (id : Option String)
    (genId genMsgId : String) (env : ChatEnv) : Except Nat (List ChatAction) :=
  match messages.getLast? with
  | none => Except.error 400
  | some lastMessage =>
      let prompt := extractPrompt lastMessage
      if prompt = "" then Except.error 400
      else
        let threadId := id.getD genId
        if env.userWriteOk then
          match env.resume with
          | none =>
              Except.ok [ChatAction.createUserMessage threadId prompt,
                ChatAction.respondStream (stream_resume_required_message genMsgId env.persistOk)]
          | some _ =>
              Except.ok [ChatAction.createUserMessage threadId prompt,
                ChatAction.respondStream (stream_response genMsgId env.outcome env.persistOk)]
        else Except.error 500

/-- A row of the `message` table as returned by the store. -/
structure StoredMessage where
  id : Nat
  sender : String
  content : String
  sent_at : Nat
deriving DecidableEq, Repr

/-- Insert a message into a list kept newest-first (descending
`sent_at`). -/
def insertDesc (m : StoredMessage) : List StoredMessage → List StoredMessage
  | [] => [m]
  | x :: xs => if x.sent_at ≤ m.sent_at then m :: x :: xs else x :: insertDesc m xs

/-- The store's native ordering `.order("sent_at", desc=True)`
(db/service.py line 70): newest-first by `sent_at`, modelled as an
insertion sort. -/
def sortBySentAtDesc : List StoredMessage → List StoredMessage
  | [] => []
  | x :: xs => insertDesc x (sortBySentAtDesc xs)

/-- The Python default of the `limit` parameter of `get_messages`
(db/service.py line 49, `limit: int = 20`); both `get_chat_history`
and `handle_function_call` call `get_messages` without a `limit`
argument. -/
def defaultMessageLimit : Nat := 20

/-- Shallow embedding of `get_messages` (db/service.py lines 48-74):
the thread's rows ordered by `sent_at` descending, truncated to
`limit`. -/
def get_messages (db : List StoredMessage) (limit : Nat) : List StoredMessage :=
  (sortBySentAtDesc db).take limit

/-- A UI message of the chat-history response: id, role, and
`(type, text)` parts. -/
structure UIMessage where
  id : String
  role : String
  parts : List (String × String)
deriving DecidableEq, Repr

/-- The per-row conversion of `get_chat_history` (index.py lines
116-124): `"model"` becomes `"assistant"`, anything else `"user"`. -/
def toUI (m : StoredMessage) : UIMessage :=
  ⟨toString m.id, if m.sender = "model" then "assistant" else "user",
   [("text", m.content)]⟩

/-- Shallow embedding of `get_chat_history` (index.py lines 108-125):
convert the store's rows in their native order, then return the
reversed list (`ui_messages[::-1]`). -/
def get_chat_history (db : List StoredMessage) : List UIMessage :=
  ((get_messages db defaultMessageLimit).map toUI).reverse

/-- The history replay built by `handle_function_call` (gemini.py
lines 117-125): iterate `past_messages[::-1]` and collect
`(role, content)` pairs. -/
def retrieved_history (db : List StoredMessage) : List (String × String) :=
  ((get_messages db defaultMessageLimit).reverse).map (fun m => (m.sender, m.content))

/-- Metadata of a Google GenAI `File` object, as read by
`_extract_file_data` through `getattr(file, ..., None)`. -/
structure GenAIFile where
  name : Option String
  mime_type : Option String
  size_bytes : Option Nat
  create_time : Option String
  expiration_time : Option String
  update_time : Option String
  sha256_hash : Option String
  uri : Option String
  state : Option String
  source : Option String
deriving DecidableEq, Repr

/-- A row of the `resume` / `job_description` tables: the dict built by
`_extract_file_data` (db/service.py lines 297-328). -/
structure FileData where
  thread_id : String
  file_name : String
  name : Option String
  mime_type : Option String
  size_bytes : Option Nat
  create_time : Option String
  expiration_time : Option String
  update_time : Option String
  sha256_hash : Option String
  uri : Option String
  state : Option String
  source : Option String
deriving DecidableEq, Repr

/-- Shallow embedding of `_extract_file_data` (db/service.py lines
297-328). -/
def _extract_file_data (thread_id file_name : String) (file : GenAIFile) : FileData :=
  ⟨thread_id, file_name, file.name, file.mime_type, file.size_bytes,
   file.create_time, file.expiration_time, file.update_time,
   file.sha256_hash, file.uri, file.state, file.source⟩

/-- Shallow embedding of `save_resume` (db/service.py lines 81-120)
over its table's rows: select the rows with this `thread_id`; if any
exist, update every matching row to the new data (supabase
`.update(...).eq("thread_id", ...)`); otherwise insert one new row. -/
def save_resume (table : List FileData) (thread_id file_name : String)
    (file : GenAIFile) : List FileData :=
  let file_data := _extract_file_data thread_id file_name file
  let existing := table.filter (fun r => r.thread_id == thread_id)
  if existing.isEmpty then table ++ [file_data]
  else table.map (fun r => if r.thread_id == thread_id then file_data else r)

/-- Shallow embedding of `save_job_description` (db/service.py lines
181-223): the same check-then-write pattern as `save_resume`, on the
`job_description` table. -/
def save_job_description (table : List FileData) (thread_id file_name : String)
    (file : GenAIFile) : List FileData :=
  let file_data := _extract_file_data thread_id file_name file
  let existing := table.filter (fun r => r.thread_id == thread_id)
  if existing.isEmpty then table ++ [file_data]
  else table.map (fun r => if r.thread_id == thread_id then file_data else r)

/-- Number of live rows of a table for a given thread. -/
def rowCount (table : List FileData) (tid : String) : Nat :=
  (table.filter (fun r => r.thread_id == tid)).length

/-- Modelled from the spec: `settings.MAX_UPLOAD_SIZE` lives in
`api/core/config.py`, which is not part of the sources; the spec fixes
the cap at 10 MiB ("rejects with a size-limit error if payload exceeds
a fixed threshold (10 MiB)"), matching the literal
`10 * 1024 * 1024` of the sibling module `api/utils/gemini.py`. -/
def MAX_UPLOAD_SIZE : Nat := 10 * 1024 * 1024

/-- Observable steps of one `upload_file` call: writing the payload to
the scoped temporary file (with the payload's byte count), the remote
upload call, each processing poll, and the `finally` cleanup of the
temporary file. -/
inductive UploadAction where
  | writeTemp (bytes : Nat)
  | remoteUpload
  | poll
  | deleteTemp
deriving DecidableEq, Repr

/-- The size guard of `upload_file` (gemini.py line 64):
`if file.size and file.size > settings.MAX_UPLOAD_SIZE` — a reported
size rejects only when it is truthy (present and nonzero) and above
the cap. -/
def sizeRejected (reportedSize : Option Nat) : Bool :=
  match reportedSize with
  | some n => !(n == 0) && decide (MAX_UPLOAD_SIZE < n)
  | none => false

/-- Shallow embedding of `upload_file` (gemini.py lines 50-90).
`reportedSize` is `file.size` (absent, or a byte count that need not
match the payload), `contentBytes` the actual payload length read by
`file.read()`, `polls` how many times the processing loop polls, and
`remote` the outcome of the remote upload. The result pairs the
ordered action trace with the HTTP outcome (413 on the size guard,
500 on a remote failure). -/
def upload_file (reportedSize : Option Nat) (contentBytes polls : Nat)
    (remote : Except String GenAIFile) :
    List UploadAction × Except Nat GenAIFile :=
  if sizeRejected reportedSize then ([], Except.error 413)
  else
    let pre := UploadAction.writeTemp contentBytes :: UploadAction.remoteUpload ::
      List.replicate polls UploadAction.poll
    match remote with
    | Except.error _ => (pre ++ [UploadAction.deleteTemp], Except.error 500)
    | Except.ok f => (pre ++ [UploadAction.deleteTemp], Except.ok f)

/-- `deltaConcat` distributes over list append. -/
theorem deltaConcat_append (l m : List SSEEvent) :
    deltaConcat (l ++ m) = deltaConcat l ++ deltaConcat m := by
  induction l with
  | nil => simp [deltaConcat]
  | cons e l ih => cases e <;> simp [deltaConcat, ih, String.append_assoc]

/-- Structural invariant of the chunk loop: the final
`accumulated_content` extends the initial one by exactly the
concatenated deltas; the loop yields no `text-end`, `finish` or
sentinel; it yields `text-start` exactly once if it starts the block
and never otherwise; and `text_started` never goes back to `false`. -/
theorem runChunks_events_spec (cs : List Chunk) : ∀ (started : Bool) (acc : String),
    (runChunks cs started acc).acc = acc ++ deltaConcat (runChunks cs started acc).events
    ∧ countTextEnd (runChunks cs started acc).events = 0
    ∧ countFinish (runChunks cs started acc).events = 0
    ∧ countDone (runChunks cs started acc).events = 0
    ∧ countTextStart (runChunks cs started acc).events =
        (if started then 0 else if (runChunks cs started acc).started then 1 else 0)
    ∧ (started = true → (runChunks cs started acc).started = true) := by
  induction cs with
  | nil =>
      intro started acc
      cases started <;>
        simp [runChunks, deltaConcat, countTextStart, countTextEnd, countFinish, countDone]
  | cons c cs ih =>
      intro started acc
      cases c with
      | fcall r =>
          by_cases hr : r = ""
          · simpa [runChunks, hr] using ih started acc
          · obtain ⟨hacc, hte, hf, hd, hts, hmono⟩ := ih true (acc ++ r)
            have hstart : (runChunks cs true (acc ++ r)).started = true := hmono rfl
            cases started <;>
              simp [runChunks, hr, countTextStart, countTextEnd, countFinish,
                    countDone, deltaConcat, List.countP_cons, List.countP_append,
                    hstart, String.append_assoc] at hacc hte hf hd hts ⊢ <;>
              exact ⟨hacc, hte, hf, hd, hts⟩
      | text s =>
          by_cases hs : s = ""
          · simpa [runChunks, hs] using ih started acc
          · obtain ⟨hacc, hte, hf, hd, hts, hmono⟩ := ih true (acc ++ s)
            have hstart : (runChunks cs true (acc ++ s)).started = true := hmono rfl
            cases started <;>
              simp [runChunks, hs, countTextStart, countTextEnd, countFinish,
                    countDone, deltaConcat, List.countP_cons, List.countP_append,
                    hstart, String.append_assoc] at hacc hte hf hd hts ⊢ <;>
              exact ⟨hacc, hte, hf, hd, hts⟩

/-- The loop result's `accumulated_content` (initial buffer `""`) is the
concatenation of the yielded deltas. -/
theorem runChunks_acc_eq (chunks : List Chunk) :
    (runChunks chunks false "").acc = deltaConcat (runChunks chunks false "").events := by
  simpa using (runChunks_events_spec chunks false "").1

/-- C1: for every streamed chat whose remote stream is consumed to its
natural end and from which no exception escapes, the concatenation of
the `delta` fields of the yielded `text-delta` events equals the content
of the "model" message persisted by `create_message`, and the
persistence step is skipped exactly when that concatenation is empty. -/
theorem stream_response_persists_delta_concat
    (messageId : String) (chunks : List Chunk) (persistOk : Bool)
    (h : (stream_response messageId (StreamOutcome.ok chunks) persistOk).raised = false) :
    (stream_response messageId (StreamOutcome.ok chunks) persistOk).persisted =
      (if deltaConcat (stream_response messageId (StreamOutcome.ok chunks) persistOk).events = ""
       then none
       else some (deltaConcat
         (stream_response messageId (StreamOutcome.ok chunks) persistOk).events)) := by
  have hacc := runChunks_acc_eq chunks
  have htail : ∀ (l : List SSEEvent) (b : Bool),
      deltaConcat (l ++ ((if b then [SSEEvent.textEnd textStreamId] else []) ++
        [SSEEvent.finish, SSEEvent.done])) = deltaConcat l := by
    intro l b
    cases b <;> simp [deltaConcat_append, deltaConcat]
  by_cases hac : (runChunks chunks false "").acc = ""
  · simp [stream_response, hac, deltaConcat, htail, ← hacc]
  · by_cases hpo : persistOk = true
    · simp [stream_response, hac, hpo, deltaConcat, htail, ← hacc]
    · exfalso
      simp [stream_response, hac, hpo] at h

/-- Witness for C1 at a concrete stream: a text chunk followed by a
resolved function call, with a successful persistence step. -/
theorem stream_response_persists_delta_concat_witness :
    (stream_response "m" (StreamOutcome.ok [Chunk.text "Hel", Chunk.fcall "lo"]) true).raised
        = false
    ∧ (stream_response "m" (StreamOutcome.ok [Chunk.text "Hel", Chunk.fcall "lo"]) true).persisted =
        (if deltaConcat
              (stream_response "m" (StreamOutcome.ok [Chunk.text "Hel", Chunk.fcall "lo"]) true).events = ""
         then none
         else some (deltaConcat
           (stream_response "m" (StreamOutcome.ok [Chunk.text "Hel", Chunk.fcall "lo"]) true).events)) :=
  ⟨by decide,
   stream_response_persists_delta_concat "m" [Chunk.text "Hel", Chunk.fcall "lo"] true (by decide)⟩

/-- C2 counterexample: when generation ends naturally with the text
"hi" but the `create_message` persistence call raises, the `except`
clause of `stream_response` emits a second `text-end` for the already
closed block: the produced stream contains two `text-end` events, not
at most one. -/
theorem stream_response_two_text_ends :
    countTextEnd (stream_response "m" (StreamOutcome.ok [Chunk.text "hi"]) false).events = 2 := by
  decide

/-- The common event shape `start :: loop events ++ closing ++
[finish, done]` is a clean stream. -/
theorem cleanTail_shape (mid : String) (chunks : List Chunk) :
    cleanTail (SSEEvent.start mid :: (runChunks chunks false "").events ++
      ((if (runChunks chunks false "").started then [SSEEvent.textEnd textStreamId] else []) ++
       [SSEEvent.finish, SSEEvent.done])) := by
  obtain ⟨-, hte, hf, hd, hts, -⟩ := runChunks_events_spec chunks false ""
  simp only [countFinish, countDone, countTextStart, countTextEnd] at hte hf hd hts
  refine ⟨⟨SSEEvent.start mid :: (runChunks chunks false "").events ++
      (if (runChunks chunks false "").started then [SSEEvent.textEnd textStreamId] else []),
      by simp⟩, ?_, ?_, ?_, ?_⟩ <;>
    cases hb : (runChunks chunks false "").started <;>
      simp only [hb, Bool.false_eq_true, if_false, if_true, reduceIte] at hts <;>
      simp [countFinish, countDone, countTextStart, countTextEnd, List.countP_append,
            List.countP_cons, hb, hte, hf, hd, hts]

/-- With a successful persistence step, both branches of the natural-end
path of `stream_response` yield the same events. -/
theorem stream_response_ok_true_events (messageId : String) (chunks : List Chunk) :
    (stream_response messageId (StreamOutcome.ok chunks) true).events =
      SSEEvent.start messageId :: (runChunks chunks false "").events ++
        ((if (runChunks chunks false "").started then [SSEEvent.textEnd textStreamId] else []) ++
         [SSEEvent.finish, SSEEvent.done]) := by
  by_cases hac : (runChunks chunks false "").acc = "" <;> simp [stream_response, hac]

/-- The events yielded by the failure path of `stream_response`. -/
theorem stream_response_fault_events (messageId : String) (chunks : List Chunk)
    (persistOk : Bool) :
    (stream_response messageId (StreamOutcome.fault chunks) persistOk).events =
      SSEEvent.start messageId :: (runChunks chunks false "").events ++
        ((if (runChunks chunks false "").started then [SSEEvent.textEnd textStreamId] else []) ++
         [SSEEvent.finish, SSEEvent.done]) := by
  simp [stream_response]

/-- C2 (amended): provided the `create_message` persistence call does
not raise, every stream produced by `stream_response` — whether the
generation stream ends naturally or raises after any prefix — and every
stream produced by `stream_resume_required_message` ends with exactly
one `finish` event immediately followed by the `[DONE]` sentinel and
contains at most one `text-start` and at most one `text-end` event. -/
theorem stream_events_invariant_when_persistence_succeeds
    (messageId : String) (outcome : StreamOutcome) :
    cleanTail (stream_response messageId outcome true).events
    ∧ cleanTail (stream_resume_required_message messageId true).events := by
  constructor
  · cases outcome with
    | ok chunks =>
        rw [stream_response_ok_true_events]
        exact cleanTail_shape messageId chunks
    | fault chunks =>
        rw [stream_response_fault_events]
        exact cleanTail_shape messageId chunks
  · refine ⟨⟨[SSEEvent.start messageId, SSEEvent.textStart textStreamId,
        SSEEvent.textDelta textStreamId resumeRequiredText, SSEEvent.textEnd textStreamId],
        by simp [stream_resume_required_message]⟩, ?_, ?_, ?_, ?_⟩ <;>
      simp [stream_resume_required_message, countFinish, countDone, countTextStart,
            countTextEnd, List.countP_cons]

/-- C4: when the gateway raises mid-stream, `stream_response` closes
any open text block (`text-end` count matches `text-start` count),
still yields `finish` and the sentinel as the final events, re-raises
the exception, and persists nothing. -/
theorem stream_response_fault_no_persist (messageId : String) (chunks : List Chunk)
    (persistOk : Bool) :
    (stream_response messageId (StreamOutcome.fault chunks) persistOk).raised = true
    ∧ (stream_response messageId (StreamOutcome.fault chunks) persistOk).persisted = none
    ∧ (∃ pre, (stream_response messageId (StreamOutcome.fault chunks) persistOk).events =
        pre ++ [SSEEvent.finish, SSEEvent.done])
    ∧ countTextEnd (stream_response messageId (StreamOutcome.fault chunks) persistOk).events =
        countTextStart (stream_response messageId (StreamOutcome.fault chunks) persistOk).events := by
  obtain ⟨-, hte, hf, hd, hts, -⟩ := runChunks_events_spec chunks false ""
  simp only [countTextStart, countTextEnd] at hte hts
  refine ⟨by simp [stream_response], by simp [stream_response],
    ⟨SSEEvent.start messageId :: (runChunks chunks false "").events ++
      (if (runChunks chunks false "").started then [SSEEvent.textEnd textStreamId] else []),
     by simp [stream_response]⟩, ?_⟩
  rw [stream_response_fault_events]
  cases hb : (runChunks chunks false "").started <;>
    simp only [hb, Bool.false_eq_true, if_false, if_true, reduceIte] at hts <;>
    simp [countTextStart, countTextEnd, List.countP_append, List.countP_cons, hb, hte, hts]

/-- C3: a chat request with an extractable prompt on a thread with no
resume record, whose writes succeed, produces exactly the fixed
prompt-for-resume event sequence — `start`, `text-start` (id
`"text-1"`), one `text-delta` carrying the fixed text, `text-end`,
`finish`, the `[DONE]` sentinel — and persists exactly that fixed text
as the one "model" message of the turn. -/
theorem chat_no_resume_fixed_stream
    (messages : List ClientMessage) (id : Option String) (genId genMsgId : String)
    (env : ChatEnv) (lastMessage : ClientMessage)
    (hlast : messages.getLast? = some lastMessage)
    (hprompt : extractPrompt lastMessage ≠ "")
    (hwrite : env.userWriteOk = true)
    (hres : env.resume = none)
    (hpersist : env.persistOk = true) :
    handle_chat_data messages id genId genMsgId env =
      Except.ok [ChatAction.createUserMessage (id.getD genId) (extractPrompt lastMessage),
        ChatAction.respondStream
          ⟨[SSEEvent.start genMsgId, SSEEvent.textStart textStreamId,
            SSEEvent.textDelta textStreamId resumeRequiredText,
            SSEEvent.textEnd textStreamId, SSEEvent.finish, SSEEvent.done],
           some resumeRequiredText, false⟩] := by
  simp [handle_chat_data, hlast, hprompt, hwrite, hres, hpersist,
        stream_resume_required_message]

/-- Witness for C3: the spec's own example request on thread `t1`. -/
theorem chat_no_resume_fixed_stream_witness :
    ([⟨"Review my resume", []⟩] : List ClientMessage).getLast? = some ⟨"Review my resume", []⟩
    ∧ extractPrompt ⟨"Review my resume", []⟩ ≠ ""
    ∧ handle_chat_data [⟨"Review my resume", []⟩] (some "t1") "g" "m1"
        ⟨true, none, none, StreamOutcome.ok [], true⟩ =
      Except.ok [ChatAction.createUserMessage "t1" (extractPrompt ⟨"Review my resume", []⟩),
        ChatAction.respondStream
          ⟨[SSEEvent.start "m1", SSEEvent.textStart textStreamId,
            SSEEvent.textDelta textStreamId resumeRequiredText,
            SSEEvent.textEnd textStreamId, SSEEvent.finish, SSEEvent.done],
           some resumeRequiredText, false⟩] :=
  ⟨rfl, by decide,
   chat_no_resume_fixed_stream [⟨"Review my resume", []⟩] (some "t1") "g" "m1"
     ⟨true, none, none, StreamOutcome.ok [], true⟩ ⟨"Review my resume", []⟩
     rfl (by decide) rfl rfl rfl⟩

/-- C5: with an extractable prompt, `handle_chat_data` durably records
the incoming user turn first: if the `create_message` write fails the
whole request fails with no response stream, and on every successful
run the first observable step of the trace is the user-turn write. -/
theorem chat_user_turn_recorded_first
    (messages : List ClientMessage) (id : Option String) (genId genMsgId : String)
    (env : ChatEnv) (lastMessage : ClientMessage)
    (hlast : messages.getLast? = some lastMessage)
    (hprompt : extractPrompt lastMessage ≠ "") :
    (env.userWriteOk = false →
      handle_chat_data messages id genId genMsgId env = Except.error 500)
    ∧ (∀ trace, handle_chat_data messages id genId genMsgId env = Except.ok trace →
        trace.head? = some (ChatAction.createUserMessage (id.getD genId)
          (extractPrompt lastMessage))) := by
  constructor
  · intro hw
    simp [handle_chat_data, hlast, hprompt, hw]
  · intro trace htr
    by_cases hw : env.userWriteOk
    · cases hres : env.resume <;>
        simp [handle_chat_data, hlast, hprompt, hw, hres] at htr <;>
        simp [← htr]
    · simp [handle_chat_data, hlast, hprompt, hw] at htr

/-- Witness for C5: a failed user-turn write on a concrete request
fails the whole request with no stream. -/
theorem chat_user_turn_recorded_first_witness :
    handle_chat_data [⟨"hi", []⟩] none "g" "m"
      ⟨false, none, none, StreamOutcome.ok [], true⟩ = Except.error 500 :=
  (chat_user_turn_recorded_first [⟨"hi", []⟩] none "g" "m"
    ⟨false, none, none, StreamOutcome.ok [], true⟩ ⟨"hi", []⟩ rfl (by decide)).1 rfl

/-- Membership in an `insertDesc` result. -/
theorem mem_insertDesc (b m : StoredMessage) (l : List StoredMessage) :
    b ∈ insertDesc m l ↔ b = m ∨ b ∈ l := by
  induction l with
  | nil => simp [insertDesc]
  | cons x xs ih =>
      rw [insertDesc]
      split
      · simp
      · simp [List.mem_cons, ih, or_left_comm]

/-- `insertDesc` preserves the newest-first ordering. -/
theorem pairwise_insertDesc (m : StoredMessage) (l : List StoredMessage)
    (h : l.Pairwise (fun a b => b.sent_at ≤ a.sent_at)) :
    (insertDesc m l).Pairwise (fun a b => b.sent_at ≤ a.sent_at) := by
  induction l with
  | nil => simp [insertDesc]
  | cons x xs ih =>
      rw [List.pairwise_cons] at h
      obtain ⟨hx, hxs⟩ := h
      rw [insertDesc]
      split
      · rename_i hc
        refine List.Pairwise.cons ?_ (List.Pairwise.cons hx hxs)
        intro b hb
        rcases List.mem_cons.mp hb with rfl | hb
        · exact hc
        · exact le_trans (hx b hb) hc
      · rename_i hc
        refine List.Pairwise.cons ?_ (ih hxs)
        intro b hb
        rcases (mem_insertDesc b m xs).mp hb with rfl | hb
        · omega
        · exact hx b hb

/-- The modelled store ordering is newest-first. -/
theorem sortBySentAtDesc_sorted (l : List StoredMessage) :
    (sortBySentAtDesc l).Pairwise (fun a b => b.sent_at ≤ a.sent_at) := by
  induction l with
  | nil => simp [sortBySentAtDesc]
  | cons x xs ih => exact pairwise_insertDesc x _ ih

/-- `insertDesc` adds exactly one element. -/
theorem length_insertDesc (m : StoredMessage) (l : List StoredMessage) :
    (insertDesc m l).length = l.length + 1 := by
  induction l with
  | nil => rfl
  | cons x xs ih =>
      rw [insertDesc]
      split
      · rfl
      · simp [ih]

/-- Sorting preserves length. -/
theorem length_sortBySentAtDesc (l : List StoredMessage) :
    (sortBySentAtDesc l).length = l.length := by
  induction l with
  | nil => rfl
  | cons x xs ih => simp [sortBySentAtDesc, length_insertDesc, ih]

/-- C6: history is presented oldest-first even though the store
returns newest-first: `get_messages` output is `sent_at`-descending,
the chat-history endpoint returns the reversal of the store's result
(so `sent_at`-ascending underneath), and the tool-call path replays
the reversal of the retrieved messages as `(role, content)` history. -/
theorem history_presented_oldest_first (db : List StoredMessage) :
    List.Pairwise (fun a b => b.sent_at ≤ a.sent_at) (get_messages db defaultMessageLimit)
    ∧ get_chat_history db = ((get_messages db defaultMessageLimit).reverse).map toUI
    ∧ List.Pairwise (fun a b => a.sent_at ≤ b.sent_at)
        ((get_messages db defaultMessageLimit).reverse)
    ∧ retrieved_history db = ((get_messages db defaultMessageLimit).reverse).map
        (fun m => (m.sender, m.content)) := by
  have hsorted : List.Pairwise (fun a b => b.sent_at ≤ a.sent_at)
      (get_messages db defaultMessageLimit) :=
    List.Pairwise.sublist (List.take_sublist _ _) (sortBySentAtDesc_sorted db)
  refine ⟨hsorted, ?_, ?_, rfl⟩
  · simp [get_chat_history, List.map_reverse]
  · rw [List.pairwise_reverse]
    exact hsorted

/-- C10: `get_messages` returns at most the 20 most recent messages —
its length is `min 20 db.length`, and every message it omits is no
newer than every message it keeps — so both the chat-history endpoint
and the tool-call history replay operate on at most 20 turns. -/
theorem history_window_latest_twenty (db : List StoredMessage) :
    defaultMessageLimit = 20
    ∧ (get_messages db defaultMessageLimit).length = min 20 db.length
    ∧ (∀ x ∈ (sortBySentAtDesc db).drop defaultMessageLimit,
        ∀ y ∈ get_messages db defaultMessageLimit, x.sent_at ≤ y.sent_at)
    ∧ (get_chat_history db).length ≤ 20
    ∧ (retrieved_history db).length ≤ 20 := by
  have hlen : (get_messages db defaultMessageLimit).length = min 20 db.length := by
    simp [get_messages, defaultMessageLimit, List.length_take, length_sortBySentAtDesc]
  refine ⟨rfl, hlen, ?_, ?_, ?_⟩
  · have h := sortBySentAtDesc_sorted db
    rw [← List.take_append_drop defaultMessageLimit (sortBySentAtDesc db)] at h
    have h3 := (List.pairwise_append.mp h).2.2
    intro x hx y hy
    exact h3 y hy x hx
  · simp [get_chat_history, hlen]
  · simp [retrieved_history, hlen]

/-- Row counts distribute over cons. -/
theorem rowCount_cons (r : FileData) (rs : List FileData) (t : String) :
    rowCount (r :: rs) t = rowCount rs t + (if r.thread_id == t then 1 else 0) := by
  simp only [rowCount, List.filter_cons]
  split <;> simp

/-- Updating all rows of thread `tid` to a row that still carries
`tid` leaves every thread's row count unchanged. -/
theorem rowCount_update (table : List FileData) (tid t : String) (fd : FileData)
    (hfd : fd.thread_id = tid) :
    rowCount (table.map (fun r => if r.thread_id == tid then fd else r)) t
      = rowCount table t := by
  induction table with
  | nil => rfl
  | cons r rs ih =>
      simp only [List.map_cons]
      by_cases hr : r.thread_id = tid
      · have h1 : (if (r.thread_id == tid) = true then fd else r) = fd := by simp [hr]
        rw [h1, rowCount_cons, rowCount_cons, ih, hfd, hr]
      · have h1 : (if (r.thread_id == tid) = true then fd else r) = r := by simp [hr]
        rw [h1, rowCount_cons, rowCount_cons, ih]

/-- Appending one row adds to exactly its own thread's count. -/
theorem rowCount_append_single (table : List FileData) (fd : FileData) (t : String) :
    rowCount (table ++ [fd]) t
      = rowCount table t + (if fd.thread_id == t then 1 else 0) := by
  simp only [rowCount, List.filter_append, List.length_append, List.filter_cons]
  split <;> simp

/-- The `existing` check of the save functions sees a row exactly when
the thread's row count is nonzero. -/
theorem filter_isEmpty_iff_rowCount (table : List FileData) (tid : String) :
    (table.filter (fun r => r.thread_id == tid)).isEmpty = true ↔ rowCount table tid = 0 := by
  simp [rowCount, List.isEmpty_iff_length_eq_zero]

/-- C7: for each document kind, saving a document for a thread that
already has a row updates in place (no length change) rather than
inserting a second row, inserts exactly one row otherwise, and
preserves the invariant of at most one live row per thread; both save
functions implement the same update-if-exists-else-insert pattern. -/
theorem save_document_at_most_one_row
    (table : List FileData) (thread_id file_name : String) (file : GenAIFile)
    (hinv : ∀ t, rowCount table t ≤ 1) :
    (∀ t, rowCount (save_resume table thread_id file_name file) t ≤ 1)
    ∧ (∀ t, rowCount (save_job_description table thread_id file_name file) t ≤ 1)
    ∧ (rowCount table thread_id ≠ 0 →
        (save_resume table thread_id file_name file).length = table.length)
    ∧ (rowCount table thread_id = 0 →
        save_resume table thread_id file_name file =
          table ++ [_extract_file_data thread_id file_name file])
    ∧ save_job_description table thread_id file_name file
        = save_resume table thread_id file_name file := by
  have hone : ∀ t, rowCount (save_resume table thread_id file_name file) t ≤ 1 := by
    intro t
    simp only [save_resume]
    by_cases hex : (table.filter (fun r => r.thread_id == thread_id)).isEmpty = true
    · have hzero := (filter_isEmpty_iff_rowCount table thread_id).mp hex
      simp only [hex, if_true]
      have hfdid : (_extract_file_data thread_id file_name file).thread_id = thread_id := rfl
      rw [rowCount_append_single, hfdid]
      by_cases ht : thread_id = t
      · subst ht
        simp [hzero]
      · simp [beq_iff_eq, ht]
        exact hinv t
    · have hex' : (table.filter (fun r => r.thread_id == thread_id)).isEmpty = false := by
        simpa using hex
      simp only [hex', Bool.false_eq_true, if_false]
      rw [rowCount_update table thread_id t _ rfl]
      exact hinv t
  refine ⟨hone, fun t => hone t, ?_, ?_, rfl⟩
  · intro hnz
    simp only [save_resume]
    have hex' : (table.filter (fun r => r.thread_id == thread_id)).isEmpty = false := by
      rcases Bool.eq_false_or_eq_true ((table.filter (fun r => r.thread_id == thread_id)).isEmpty)
        with h | h
      · exact absurd ((filter_isEmpty_iff_rowCount table thread_id).mp h) hnz
      · exact h
    simp [hex']
  · intro hz
    have hex : (table.filter (fun r => r.thread_id == thread_id)).isEmpty = true :=
      (filter_isEmpty_iff_rowCount table thread_id).mpr hz
    simp only [save_resume, hex, if_true]

/-- Witness for C7: a table holding one resume row for thread `t1`;
re-saving for `t1` keeps the row count at one and the table length
unchanged. -/
theorem save_document_at_most_one_row_witness :
    rowCount (save_resume
        [⟨"t1", "old.pdf", none, none, none, none, none, none, none, none, none, none⟩]
        "t1" "new.pdf" ⟨none, none, none, none, none, none, none, none, none, none⟩) "t1" ≤ 1
    ∧ (save_resume
        [⟨"t1", "old.pdf", none, none, none, none, none, none, none, none, none, none⟩]
        "t1" "new.pdf" ⟨none, none, none, none, none, none, none, none, none, none⟩).length
      = 1 :=
  ⟨(save_document_at_most_one_row
      [⟨"t1", "old.pdf", none, none, none, none, none, none, none, none, none, none⟩]
      "t1" "new.pdf" ⟨none, none, none, none, none, none, none, none, none, none⟩
      (fun _ => List.length_filter_le _ _)).1 "t1",
   (save_document_at_most_one_row
      [⟨"t1", "old.pdf", none, none, none, none, none, none, none, none, none, none⟩]
      "t1" "new.pdf" ⟨none, none, none, none, none, none, none, none, none, none⟩
      (fun _ => List.length_filter_le _ _)).2.2.1 (by decide)⟩

/-- C8: a payload whose reported size exceeds the 10 MiB cap is
rejected with HTTP 413 before any action — no temporary-file write and
no remote call; and whenever the temporary file is written, the last
action on every exit path (success or remote failure) is its
deletion. -/
theorem upload_file_size_cap (reportedSize : Option Nat) (contentBytes polls : Nat)
    (remote : Except String GenAIFile) :
    (∀ n, reportedSize = some n → 0 < n → MAX_UPLOAD_SIZE < n →
      upload_file reportedSize contentBytes polls remote = ([], Except.error 413))
    ∧ (UploadAction.writeTemp contentBytes ∈ (upload_file reportedSize contentBytes polls remote).1 →
        (upload_file reportedSize contentBytes polls remote).1.getLast?
          = some UploadAction.deleteTemp) := by
  constructor
  · intro n hn hpos hcap
    have hrej : sizeRejected reportedSize = true := by
      subst hn
      simp [sizeRejected, hcap]
      omega
    simp [upload_file, hrej]
  · intro hmem
    by_cases hrej : sizeRejected reportedSize = true
    · simp [upload_file, hrej] at hmem
    · cases remote <;>
        simp [upload_file, hrej] <;>
        rw [← List.cons_append, List.getLast?_concat]

/-- Witness for C8: an 10 MiB + 1 reported size is rejected outright;
an accepted upload that fails remotely still deletes the temporary
file last. -/
theorem upload_file_size_cap_witness :
    upload_file (some 10485761) 0 0 (Except.error "remote down") = ([], Except.error 413)
    ∧ (upload_file none 5 2 (Except.error "remote down")).1.getLast?
        = some UploadAction.deleteTemp :=
  ⟨(upload_file_size_cap (some 10485761) 0 0 (Except.error "remote down")).1
      10485761 rfl (by decide) (by decide),
   (upload_file_size_cap none 5 2 (Except.error "remote down")).2 (by decide)⟩

/-- C9: when `file.size` is absent or zero, the size guard is skipped
entirely: even for a payload strictly larger than the cap, the payload
is written to the temporary file, the remote upload is attempted, and
the result is never the 413 size-limit error. -/
theorem upload_file_unreported_size_skips_guard
    (contentBytes polls : Nat) (remote : Except String GenAIFile)
    (_hbig : MAX_UPLOAD_SIZE < contentBytes) :
    ((upload_file none contentBytes polls remote).1.head?
        = some (UploadAction.writeTemp contentBytes)
      ∧ UploadAction.remoteUpload ∈ (upload_file none contentBytes polls remote).1
      ∧ (upload_file none contentBytes polls remote).2 ≠ Except.error 413)
    ∧ ((upload_file (some 0) contentBytes polls remote).1.head?
        = some (UploadAction.writeTemp contentBytes)
      ∧ UploadAction.remoteUpload ∈ (upload_file (some 0) contentBytes polls remote).1
      ∧ (upload_file (some 0) contentBytes polls remote).2 ≠ Except.error 413) := by
  constructor <;>
    cases remote <;>
      simp [upload_file, sizeRejected]

/-- Witness for C9: a 10 MiB + 1 payload with no reported size is
still written and uploaded. -/
theorem upload_file_unreported_size_skips_guard_witness :
    (upload_file none 10485761 0 (Except.ok ⟨none, none, none, none, none, none, none,
        none, none, none⟩)).1.head? = some (UploadAction.writeTemp 10485761)
    ∧ (upload_file none 10485761 0 (Except.ok ⟨none, none, none, none, none, none, none,
        none, none, none⟩)).2 ≠ Except.error 413 :=
  ⟨(upload_file_unreported_size_skips_guard 10485761 0
      (Except.ok ⟨none, none, none, none, none, none, none, none, none, none⟩)
      (by decide)).1.1,
   (upload_file_unreported_size_skips_guard 10485761 0
      (Except.ok ⟨none, none, none, none, none, none, none, none, none, none⟩)
      (by decide)).1.2.2⟩

end ExperienceIQ
